import Mathlib

/-!
Verification of the Jibbit job-search tracker core against its specification.

The repository ships only its test suite; the production modules
(`app.jobs.pipeline`, `app.jobs.deadlines`, `app.matching.engine`,
`app.analytics.pipeline`, `app.jobs.service`, `app.cover.ai`) are exercised
through monkeypatched stand-ins.  The components below are therefore modelled
from the specification's own description of those operations, except for the
cover-letter generator, whose deterministic stub (`fake_ai`) is part of the
repository's source and is embedded directly.
-/

set_option autoImplicit false

namespace Jibbit

/-! ## Pipeline state machine -/

/-- Modelled from the spec: the six enumerated pipeline stages
(§4.1, PipelineEngine `move`). -/
def stageNames : List String :=
  ["Interested", "Applied", "Phone Screen", "Interview", "Offer", "Rejected"]

/-- A stage-history entry: from-stage, to-stage, timestamp (§3). -/
structure HistoryEntry where
  fromStage : String
  toStage : String
  timestamp : Int
deriving DecidableEq, Repr

/-- A job application record (§3), with the fields the core operates on. -/
structure JobApplication where
  id : String
  title : String
  company : String
  description : String
  deadline : Option Int
  stage : String
  history : List HistoryEntry
deriving DecidableEq, Repr

/-- Errors signalled by the pipeline `move` operation (§4.1, §7). -/
inductive MoveError where
  | unknownStage
  | nonMonotonicTime
deriving DecidableEq, Repr

/-- Timestamp of the last recorded transition, if any. -/
def lastTimestamp (j : JobApplication) : Option Int :=
  j.history.getLast?.map (·.timestamp)

/-- Append a transition and update the current stage (§4.1, Effect). -/
def record (j : JobApplication) (target : String) (t : Int) : JobApplication :=
  { j with stage := target, history := j.history ++ [⟨j.stage, target, t⟩] }

/-- Modelled from the spec: `PipelineEngine.move(jobId, targetStage, timestamp)`
(§4.1).  The target stage must be one of the six enumerated stages, else
`UnknownStageError`; the timestamp must not precede the last recorded
transition, else `NonMonotonicTimeError`; on success the transition is
appended and the current stage updated. -/
def move (j : JobApplication) (target : String) (t : Int) :
    Except MoveError JobApplication :=
  if target ∈ stageNames then
    match lastTimestamp j with
    | some lt => if t < lt then .error .nonMonotonicTime else .ok (record j target t)
    | none => .ok (record j target t)
  else
    .error .unknownStage

/-- Running a move against the store: on success the updated job is kept, on
failure the original job is kept and the error reported (§7: rejected moves
leave state unchanged). -/
def runMove (j : JobApplication) (target : String) (t : Int) :
    JobApplication × Option MoveError :=
  match move j target t with
  | .ok j' => (j', none)
  | .error e => (j, some e)

/-- A sample job sitting at `Applied` with one recorded transition. -/
def jobApplied : JobApplication :=
  { id := "job_123", title := "Software Engineer", company := "Acme Corp"
  , description := "Build core services and APIs", deadline := none
  , stage := "Applied", history := [⟨"Interested", "Applied", 10⟩] }

/-- Claim C1 counterexample: a stage-move whose target stage is one of the six
enumerated stages is nevertheless rejected (with `NonMonotonicTimeError`)
when its timestamp precedes the last recorded transition, so acceptance is
not equivalent to the target stage being in the enumerated set. -/
theorem move_accept_iff_stage_counterexample :
    "Interview" ∈ stageNames ∧ ¬ ∃ j', move jobApplied "Interview" 5 = .ok j' := by
  constructor
  · decide
  · intro ⟨j', h⟩
    simp [move, jobApplied, lastTimestamp, stageNames] at h

/-- Claim C1 (amended): a stage-move request is accepted iff the target stage is one
of the six enumerated stages and the timestamp does not precede the last
recorded transition; whenever the target stage is outside the enumerated set
the operation signals `UnknownStageError` and records no transition. -/
theorem move_accept_iff_stage_amended (j : JobApplication) (target : String) (t : Int) :
    ((∃ j', move j target t = .ok j') ↔
      (target ∈ stageNames ∧ ∀ lt, lastTimestamp j = some lt → lt ≤ t)) ∧
    (target ∉ stageNames → move j target t = .error .unknownStage) := by
  constructor
  · constructor
    · intro ⟨j', h⟩
      by_cases hm : target ∈ stageNames
      · refine ⟨hm, ?_⟩
        intro lt hlt
        simp only [move, hm, if_true, hlt] at h
        by_cases hts : t < lt
        · simp [hts] at h
        · omega
      · simp [move, hm] at h
    · intro ⟨hm, hts⟩
      simp only [move, hm, if_true]
      cases hlt : lastTimestamp j with
      | none => exact ⟨record j target t, rfl⟩
      | some lt =>
        have := hts lt hlt
        have hnot : ¬ t < lt := by omega
        simp only [hnot, if_false]
        exact ⟨record j target t, rfl⟩
  · intro hm
    simp [move, hm]

/-- Claim C1 witness: at a concrete rejected request with an out-of-set stage. -/
theorem move_accept_iff_stage_witness :
    move jobApplied "Ghosted" 20 = .error .unknownStage :=
  (move_accept_iff_stage_amended jobApplied "Ghosted" 20).2 (by decide)

/-- Claim C6: a stage-move (to a known stage) whose timestamp precedes the last
recorded history entry is rejected with `NonMonotonicTimeError`, and the job
kept in the store — history included — is exactly the original one. -/
theorem move_nonmonotonic_rejected_unchanged
    (j : JobApplication) (target : String) (t lt : Int)
    (hm : target ∈ stageNames) (hlt : lastTimestamp j = some lt) (ht : t < lt) :
    runMove j target t = (j, some .nonMonotonicTime) := by
  simp [runMove, move, hm, hlt, ht]

/-- Claim C6 witness: a concrete back-dated move is rejected and leaves the job,
history included, unchanged. -/
theorem move_nonmonotonic_rejected_unchanged_witness :
    runMove jobApplied "Interview" 5 = (jobApplied, some .nonMonotonicTime) :=
  move_nonmonotonic_rejected_unchanged jobApplied "Interview" 5 10
    (by decide) (by decide) (by decide)

/-! ## Pipeline well-formedness invariant -/

/-- The history timestamps are non-decreasing. -/
def chronological : List HistoryEntry → Bool
  | [] => true
  | [_] => true
  | a :: b :: r => if a.timestamp ≤ b.timestamp then chronological (b :: r) else false

/-- Well-formedness of a job (§3 invariant): the current stage equals the
to-stage of the last history entry (the initial stage stands when the history
is empty, since nothing constrains it), and history timestamps are
non-decreasing. -/
def wf (j : JobApplication) : Bool :=
  (match j.history.getLast? with
   | none => true
   | some e => j.stage == e.toStage) && chronological j.history

/-- Apply a list of move requests in order; rejected moves leave the job as
it was. -/
def applyMoves (j : JobApplication) (reqs : List (String × Int)) : JobApplication :=
  reqs.foldl (fun acc r =>
    match move acc r.1 r.2 with
    | .ok j' => j'
    | .error _ => acc) j

theorem chronological_append (l : List HistoryEntry) (e : HistoryEntry) :
    chronological (l ++ [e]) = true ↔
      (chronological l = true ∧ ∀ x, l.getLast? = some x → x.timestamp ≤ e.timestamp) := by
  induction l with
  | nil => simp [chronological]
  | cons a tl ih =>
    cases tl with
    | nil =>
      simp only [List.cons_append, List.nil_append]
      constructor
      · intro h
        have hle : a.timestamp ≤ e.timestamp := by
          by_cases hle : a.timestamp ≤ e.timestamp
          · exact hle
          · simp [chronological, hle] at h
        refine ⟨by simp [chronological], ?_⟩
        intro x hx
        have hax : a = x := by simpa using hx
        subst hax
        exact hle
      · intro ⟨_, hx⟩
        have := hx a (by simp)
        simp [chronological, this]
    | cons b r =>
      simp only [List.cons_append, chronological, List.getLast?_cons_cons] at *
      by_cases hab : a.timestamp ≤ b.timestamp
      · simpa [hab] using ih
      · simp [hab]

theorem move_ok_step (j : JobApplication) (target : String) (t : Int)
    (j' : JobApplication) (hwf : wf j = true) (h : move j target t = .ok j') :
    wf j' = true ∧ j'.history = j.history ++ [⟨j.stage, target, t⟩] ∧
      j'.stage = target ∧ ∀ e, j.history.getLast? = some e → e.timestamp ≤ t := by
  have hm : target ∈ stageNames := by
    by_cases hm : target ∈ stageNames
    · exact hm
    · simp [move, hm] at h
  have hts : ∀ e, j.history.getLast? = some e → e.timestamp ≤ t := by
    intro e he
    have hlt : lastTimestamp j = some e.timestamp := by
      simp [lastTimestamp, he]
    simp only [move, hm, if_true, hlt] at h
    by_cases hc : t < e.timestamp
    · simp [hc] at h
    · omega
  have hrec : j' = record j target t := by
    simp only [move, hm, if_true] at h
    cases hlt : lastTimestamp j with
    | none => simp [hlt] at h; exact h.symm
    | some lt =>
      simp only [hlt] at h
      by_cases hc : t < lt
      · simp [hc] at h
      · simp [hc] at h; exact h.symm
  subst hrec
  have hchron : chronological j.history = true := by
    simp only [wf, Bool.and_eq_true] at hwf
    exact hwf.2
  refine ⟨?_, rfl, rfl, hts⟩
  simp only [wf, record, List.getLast?_concat, beq_self_eq_true, Bool.true_and]
  exact (chronological_append j.history ⟨j.stage, target, t⟩).2 ⟨hchron, hts⟩

theorem applyMoves_wf (j : JobApplication) (reqs : List (String × Int))
    (hwf : wf j = true) : wf (applyMoves j reqs) = true := by
  induction reqs generalizing j with
  | nil => exact hwf
  | cons r rs ih =>
    simp only [applyMoves, List.foldl_cons]
    cases h : move j r.1 r.2 with
    | ok j' => exact ih j' (move_ok_step j r.1 r.2 j' hwf h).1
    | error e => exact ih j hwf

/-- Claim C7: a well-formed job stays well-formed: every accepted move appends
exactly one history entry, whose timestamp is at least the previous last
entry's, and sets the current stage to that entry's target; and any sequence
of move requests applied to a well-formed job yields a well-formed job
(current stage equal to the last entry's to-stage and non-decreasing
timestamps). -/
theorem pipeline_invariant_preserved (j : JobApplication) (hwf : wf j = true) :
    (∀ target t j', move j target t = .ok j' →
        wf j' = true ∧ j'.history = j.history ++ [⟨j.stage, target, t⟩] ∧
          j'.stage = target ∧ ∀ e, j.history.getLast? = some e → e.timestamp ≤ t) ∧
    (∀ reqs, wf (applyMoves j reqs) = true) :=
  ⟨fun target t j' h => move_ok_step j target t j' hwf h,
   fun reqs => applyMoves_wf j reqs hwf⟩

/-- Claim C7 witness: a concrete well-formed job stays well-formed under a
concrete request sequence. -/
theorem pipeline_invariant_preserved_witness :
    wf (applyMoves jobApplied [("Interview", 20), ("Offer", 30)]) = true :=
  (pipeline_invariant_preserved jobApplied (by decide)).2 [("Interview", 20), ("Offer", 30)]

/-! ## Deadline scheduler -/

/-- Urgency tiers for deadline proximity (§4.2). -/
inductive Urgency where
  | green
  | yellow
  | red
deriving DecidableEq, Repr

/-- Modelled from the spec: urgency classification (§4.2): `red` if
`daysRemaining ≤ 1`, `yellow` if `2 ≤ daysRemaining ≤ 7`, `green` if
`daysRemaining > 7`. -/
def urgencyOf (d : Int) : Urgency :=
  if d ≤ 1 then .red else if d ≤ 7 then .yellow else .green

/-- A deadline card (§3): job identifier, days remaining (may be negative),
urgency tier. -/
structure DeadlineCard where
  jobId : String
  daysRemaining : Int
  urgency : Urgency
deriving DecidableEq, Repr

/-- Result of the deadline scheduler: one card per job with a deadline, and
the identifiers of overdue jobs. -/
structure DeadlineReport where
  cards : List DeadlineCard
  overdue : List String
deriving DecidableEq, Repr

/-- Modelled from the spec: `DeadlineScheduler.computeDeadlines(now, jobs)`
(§4.2).  Times are in whole days, so `daysRemaining = deadline − now`; each
job with a deadline gets a card, and jobs with `daysRemaining < 0` are
additionally placed in the overdue list. -/
def computeDeadlines (now : Int) (jobs : List JobApplication) : DeadlineReport :=
  let withDays : List (String × Int) :=
    jobs.filterMap (fun j => j.deadline.map (fun dl => (j.id, dl - now)))
  { cards := withDays.map (fun p => ⟨p.1, p.2, urgencyOf p.2⟩)
  , overdue := (withDays.filter (fun p => p.2 < 0)).map (·.1) }

/-- Claim C2: on every card produced by `computeDeadlines`, the urgency tier is
`red` iff `daysRemaining ≤ 1`, `yellow` iff `2 ≤ daysRemaining ≤ 7`, `green`
iff `daysRemaining > 7`; and a card with negative `daysRemaining` has its job
in the overdue list and is classified `red`. -/
theorem computeDeadlines_urgency (now : Int) (jobs : List JobApplication)
    (c : DeadlineCard) (hc : c ∈ (computeDeadlines now jobs).cards) :
    (c.urgency = .red ↔ c.daysRemaining ≤ 1) ∧
    (c.urgency = .yellow ↔ 2 ≤ c.daysRemaining ∧ c.daysRemaining ≤ 7) ∧
    (c.urgency = .green ↔ 7 < c.daysRemaining) ∧
    (c.daysRemaining < 0 →
      c.jobId ∈ (computeDeadlines now jobs).overdue ∧ c.urgency = .red) := by
  simp only [computeDeadlines, List.mem_map] at hc
  obtain ⟨p, hp, rfl⟩ := hc
  refine ⟨?_, ?_, ?_, ?_⟩
  · simp only [urgencyOf]
    split_ifs with h1 h2 <;> simp <;> omega
  · simp only [urgencyOf]
    split_ifs with h1 h2 <;> simp <;> omega
  · simp only [urgencyOf]
    split_ifs with h1 h2 <;> simp <;> omega
  · intro hneg
    have hneg' : p.2 < 0 := hneg
    constructor
    · simp only [computeDeadlines, List.mem_map]
      refine ⟨p, ?_, rfl⟩
      simp only [List.mem_filter]
      exact ⟨hp, by simpa using hneg'⟩
    · simp only [urgencyOf]
      have h1 : p.2 ≤ 1 := by omega
      simp [h1]

/-- Claim C2 witness: a concrete overdue job is classified `red` and appears in
the overdue list. -/
theorem computeDeadlines_urgency_witness :
    (⟨"job_123", -3, Urgency.red⟩ : DeadlineCard).daysRemaining < 0 ∧
    (⟨"job_123", -3, Urgency.red⟩ : DeadlineCard).jobId ∈
      (computeDeadlines 10 [{ jobApplied with deadline := some 7 }]).overdue ∧
    (⟨"job_123", -3, Urgency.red⟩ : DeadlineCard).urgency = Urgency.red :=
  ⟨by decide,
   (computeDeadlines_urgency 10 [{ jobApplied with deadline := some 7 }]
      ⟨"job_123", -3, Urgency.red⟩ (by decide)).2.2.2 (by decide)⟩

/-! ## Matching engine -/

/-- Per-category weights for the three fixed categories (§4.3). -/
structure Weights where
  skills : Rat
  experience : Rat
  education : Rat
deriving DecidableEq, Repr

/-- Default weights: equal across the three categories (§4.3). -/
def defaultWeights : Weights := ⟨1/3, 1/3, 1/3⟩

/-- Sum of the three category weights. -/
def wsum (w : Weights) : Rat := w.skills + w.experience + w.education

/-- Caller-supplied weights normalized to sum to 1 (§4.3); an all-zero weight
vector cannot be normalized and is left as is. -/
def normWeights (w : Weights) : Weights :=
  if wsum w = 0 then w
  else ⟨w.skills / wsum w, w.experience / wsum w, w.education / wsum w⟩

/-- Clip a value to the interval [0, 1] (§4.3). -/
def clip (x : Rat) : Rat := max 0 (min 1 x)

/-- Modelled from the spec: skills category score (§4.3):
`|required ∩ profile| / |required|`, over required skills taken as a set,
and 0 when no required skills are specified. -/
def skillsScore (required profile : List String) : Rat :=
  let r := required.dedup
  if r.isEmpty then 0
  else ((r.filter (fun s => profile.contains s)).length : Rat) / (r.length : Rat)

/-- Required skills present in the profile (§4.3). -/
def strengthsOf (required profile : List String) : List String :=
  required.dedup.filter (fun s => profile.contains s)

/-- Required skills absent from the profile (§4.3). -/
def gapsOf (required profile : List String) : List String :=
  required.dedup.filter (fun s => !profile.contains s)

/-- Error signalled by the matching engine on negative weights (§4.3). -/
inductive MatchError where
  | invalidWeights
deriving DecidableEq, Repr

/-- A match result (§3): overall score, per-category scores, strengths and
gaps. -/
structure MatchResult where
  score : Rat
  catSkills : Rat
  catExperience : Rat
  catEducation : Rat
  strengths : List String
  gaps : List String
deriving DecidableEq, Repr

/-- Modelled from the spec: `MatchingEngine.match(job, profile, weights?)`
(§4.3).  The experience and education category scores come from a pluggable
external similarity collaborator and are taken as inputs; the skills score is
computed; negative weights signal `InvalidWeightsError`; supplied weights are
normalized to sum to 1 (defaults are equal thirds); the overall score is the
weighted sum of the category scores, clipped to [0, 1]. -/
def engineMatch (required profile : List String) (expScore eduScore : Rat)
    (wOpt : Option Weights) : Except MatchError MatchResult :=
  let w := wOpt.getD defaultWeights
  if w.skills < 0 ∨ w.experience < 0 ∨ w.education < 0 then .error .invalidWeights
  else
    let nw := normWeights w
    let sk := skillsScore required profile
    .ok { score := clip (nw.skills * sk + nw.experience * expScore + nw.education * eduScore)
        , catSkills := sk
        , catExperience := expScore
        , catEducation := eduScore
        , strengths := strengthsOf required profile
        , gaps := gapsOf required profile }

theorem skillsScore_nonneg (required profile : List String) :
    0 ≤ skillsScore required profile := by
  simp only [skillsScore]
  split_ifs
  · exact le_refl 0
  · positivity

theorem skillsScore_le_one (required profile : List String) :
    skillsScore required profile ≤ 1 := by
  simp only [skillsScore]
  split_ifs with h
  · norm_num
  · have hlen : 0 < required.dedup.length := by
      cases hd : required.dedup with
      | nil => simp [hd] at h
      | cons a l => simp [hd]
    have hle : (required.dedup.filter (fun s => profile.contains s)).length ≤
        required.dedup.length := List.length_filter_le _ _
    rw [div_le_one (by exact_mod_cast hlen)]
    exact_mod_cast hle

theorem clip_mem (x : Rat) : 0 ≤ clip x ∧ clip x ≤ 1 := by
  constructor
  · exact le_max_left 0 _
  · exact max_le (by norm_num) (min_le_left 1 x)

theorem clip_eq_self {x : Rat} (h0 : 0 ≤ x) (h1 : x ≤ 1) : clip x = x := by
  simp [clip, min_eq_right h1, max_eq_right h0]

/-- The payload of a successful result, if any. -/
def okResult {ε α : Type} : Except ε α → Option α
  | .ok a => some a
  | .error _ => none

theorem engineMatch_ok (required profile : List String) (es ed : Rat)
    (wOpt : Option Weights)
    (hw : ¬ ((wOpt.getD defaultWeights).skills < 0 ∨
      (wOpt.getD defaultWeights).experience < 0 ∨ (wOpt.getD defaultWeights).education < 0)) :
    engineMatch required profile es ed wOpt =
      .ok { score := clip ((normWeights (wOpt.getD defaultWeights)).skills *
                skillsScore required profile +
              (normWeights (wOpt.getD defaultWeights)).experience * es +
              (normWeights (wOpt.getD defaultWeights)).education * ed)
          , catSkills := skillsScore required profile
          , catExperience := es
          , catEducation := ed
          , strengths := strengthsOf required profile
          , gaps := gapsOf required profile } := by
  simp [engineMatch, hw]

/-- Claim C3 counterexample: when no required skills are specified, the skills
category score is 0, not a full match (it is not 1), so the spec's two
readings cannot both hold. -/
theorem skillsScore_empty_counterexample :
    (okResult (engineMatch [] ["Python"] (4/5) (7/10) none)).map (fun r => r.catSkills)
      = some 0 ∧
    ¬ (okResult (engineMatch [] ["Python"] (4/5) (7/10) none)).map (fun r => r.catSkills)
      = some 1 := by
  rw [engineMatch_ok [] ["Python"] (4/5) (7/10) none (by norm_num [defaultWeights])]
  simp [okResult, skillsScore]

/-- Claim C3 (amended): whenever `match` succeeds, the skills category score equals
`|required ∩ profile| / |required|` (over required skills as a set) when at
least one required skill is specified, and equals 0 — not a full match — when
none is; the strengths are the required skills present in the profile and the
gaps the required skills absent from it.  In particular, for required skills
{Python, Terraform} and profile skills {Python, Pandas}, the skills score is
1/2, strengths = [Python], gaps = [Terraform]. -/
theorem match_skills_score_amended :
    (∀ (required profile : List String) (es ed : Rat) (wOpt : Option Weights) r,
      engineMatch required profile es ed wOpt = .ok r →
        (required ≠ [] →
          r.catSkills = ((required.dedup.filter (fun s => profile.contains s)).length : Rat) /
            (required.dedup.length : Rat)) ∧
        (required = [] → r.catSkills = 0) ∧
        r.strengths = strengthsOf required profile ∧
        r.gaps = gapsOf required profile) ∧
    ((okResult (engineMatch ["Python", "Terraform"] ["Python", "Pandas"] (4/5) (7/10) none)).map
        (fun r => (r.catSkills, r.strengths, r.gaps))
      = some (1/2, ["Python"], ["Terraform"])) := by
  constructor
  · intro required profile es ed wOpt r h
    have hok : r.catSkills = skillsScore required profile ∧
        r.strengths = strengthsOf required profile ∧
        r.gaps = gapsOf required profile := by
      simp only [engineMatch] at h
      split_ifs at h with hw
      cases h
      exact ⟨rfl, rfl, rfl⟩
    obtain ⟨hsk, hst, hgp⟩ := hok
    refine ⟨?_, ?_, hst, hgp⟩
    · intro hne
      rw [hsk]
      simp only [skillsScore]
      have hemp : ¬ (required.dedup.isEmpty = true) := by
        simp only [List.isEmpty_iff, List.dedup_eq_nil]
        exact hne
      simp [hemp]
    · intro he
      subst he
      rw [hsk]
      simp [skillsScore]
  · rw [engineMatch_ok ["Python", "Terraform"] ["Python", "Pandas"] (4/5) (7/10) none
      (by norm_num [defaultWeights])]
    simp only [okResult, Option.map_some', Option.some.injEq, Prod.mk.injEq]
    refine ⟨?_, ?_, ?_⟩
    · show skillsScore ["Python", "Terraform"] ["Python", "Pandas"] = 1/2
      have hd : (["Python", "Terraform"] : List String).dedup = ["Python", "Terraform"] := by
        decide
      have hf : (["Python", "Terraform"] : List String).filter
          (fun s => (["Python", "Pandas"] : List String).contains s) = ["Python"] := by
        decide
      simp only [skillsScore, hd, hf]
      norm_num
    · show strengthsOf ["Python", "Terraform"] ["Python", "Pandas"] = ["Python"]
      decide
    · show gapsOf ["Python", "Terraform"] ["Python", "Pandas"] = ["Terraform"]
      decide

/-- Claim C3 witness: the amended general statement at a concrete call with a
nonempty required-skills set. -/
theorem match_skills_score_amended_witness :
    ∃ r, engineMatch ["Go"] ["Python"] 0 0 none = .ok r ∧
      r.catSkills = (((["Go"].dedup.filter (fun s => ["Python"].contains s)).length : Rat) /
        ((["Go"].dedup.length : Rat))) := by
  have hE := engineMatch_ok ["Go"] ["Python"] 0 0 none (by norm_num [defaultWeights])
  exact ⟨_, hE, (match_skills_score_amended.1 ["Go"] ["Python"] 0 0 none _ hE).1 (by decide)⟩

theorem normWeights_sum_one {w : Weights} (h : wsum w ≠ 0) :
    (normWeights w).skills + (normWeights w).experience + (normWeights w).education = 1 := by
  simp only [normWeights, if_neg h]
  rw [div_add_div_same, div_add_div_same]
  exact div_self (by simpa [wsum] using h)

theorem normWeights_nonneg {w : Weights} (hs : 0 ≤ w.skills) (he : 0 ≤ w.experience)
    (hd : 0 ≤ w.education) (hpos : 0 < wsum w) :
    0 ≤ (normWeights w).skills ∧ 0 ≤ (normWeights w).experience ∧
      0 ≤ (normWeights w).education := by
  simp only [normWeights, if_neg (ne_of_gt hpos)]
  exact ⟨div_nonneg hs hpos.le, div_nonneg he hpos.le, div_nonneg hd hpos.le⟩

/-- Claim C4: every successful `match` result has an overall score in [0, 1]; and
whenever the category scores supplied by the similarity collaborator lie in
[0, 1] and the (supplied or default) weights are non-negative with positive
sum, the overall score equals the weighted mean of the three category scores
under the weights normalized to sum to 1. -/
theorem match_overall_weighted_mean :
    (∀ (required profile : List String) (es ed : Rat) (wOpt : Option Weights) r,
        engineMatch required profile es ed wOpt = .ok r → 0 ≤ r.score ∧ r.score ≤ 1) ∧
    (∀ (required profile : List String) (es ed : Rat) (wOpt : Option Weights),
        0 ≤ es → es ≤ 1 → 0 ≤ ed → ed ≤ 1 →
        0 ≤ (wOpt.getD defaultWeights).skills →
        0 ≤ (wOpt.getD defaultWeights).experience →
        0 ≤ (wOpt.getD defaultWeights).education →
        0 < wsum (wOpt.getD defaultWeights) →
        ∃ r, engineMatch required profile es ed wOpt = .ok r ∧
          (normWeights (wOpt.getD defaultWeights)).skills +
            (normWeights (wOpt.getD defaultWeights)).experience +
            (normWeights (wOpt.getD defaultWeights)).education = 1 ∧
          r.score = (normWeights (wOpt.getD defaultWeights)).skills * r.catSkills +
            (normWeights (wOpt.getD defaultWeights)).experience * r.catExperience +
            (normWeights (wOpt.getD defaultWeights)).education * r.catEducation ∧
          0 ≤ r.score ∧ r.score ≤ 1) := by
  constructor
  · intro required profile es ed wOpt r h
    simp only [engineMatch] at h
    split_ifs at h with hw
    cases h
    exact clip_mem _
  · intro required profile es ed wOpt hes0 hes1 hed0 hed1 hws hwe hwd hpos
    have hwneg : ¬ ((wOpt.getD defaultWeights).skills < 0 ∨
        (wOpt.getD defaultWeights).experience < 0 ∨
        (wOpt.getD defaultWeights).education < 0) := by
      push_neg
      exact ⟨hws, hwe, hwd⟩
    have hE := engineMatch_ok required profile es ed wOpt hwneg
    have hsum := normWeights_sum_one (w := wOpt.getD defaultWeights) (ne_of_gt hpos)
    obtain ⟨h1, h2, h3⟩ := normWeights_nonneg hws hwe hwd hpos
    have hsk0 := skillsScore_nonneg required profile
    have hsk1 := skillsScore_le_one required profile
    have hS0 : 0 ≤ (normWeights (wOpt.getD defaultWeights)).skills *
          skillsScore required profile +
        (normWeights (wOpt.getD defaultWeights)).experience * es +
        (normWeights (wOpt.getD defaultWeights)).education * ed :=
      add_nonneg (add_nonneg (mul_nonneg h1 hsk0) (mul_nonneg h2 hes0))
        (mul_nonneg h3 hed0)
    have hS1 : (normWeights (wOpt.getD defaultWeights)).skills *
          skillsScore required profile +
        (normWeights (wOpt.getD defaultWeights)).experience * es +
        (normWeights (wOpt.getD defaultWeights)).education * ed ≤ 1 := by
      have t1 := mul_le_of_le_one_right h1 hsk1
      have t2 := mul_le_of_le_one_right h2 hes1
      have t3 := mul_le_of_le_one_right h3 hed1
      linarith
    refine ⟨_, hE, hsum, ?_, ?_, ?_⟩
    · show clip _ = _
      rw [clip_eq_self hS0 hS1]
    · show 0 ≤ clip _
      exact (clip_mem _).1
    · show clip _ ≤ 1
      exact (clip_mem _).2

/-- Claim C4 witness: at a concrete call with default weights and collaborator
scores 1/2, the overall score is the normalized-weighted mean and lies in
[0, 1]. -/
theorem match_overall_weighted_mean_witness :
    ∃ r, engineMatch ["Python", "Terraform"] ["Python"] (1/2) (1/2) none = .ok r ∧
      r.score = (normWeights defaultWeights).skills * r.catSkills +
        (normWeights defaultWeights).experience * r.catExperience +
        (normWeights defaultWeights).education * r.catEducation ∧
      0 ≤ r.score ∧ r.score ≤ 1 := by
  obtain ⟨r, hE, _, hmean, hge, hle⟩ :=
    match_overall_weighted_mean.2 ["Python", "Terraform"] ["Python"] (1/2) (1/2) none
      (by norm_num) (by norm_num) (by norm_num) (by norm_num)
      (by norm_num [defaultWeights]) (by norm_num [defaultWeights])
      (by norm_num [defaultWeights]) (by norm_num [wsum, defaultWeights])
  exact ⟨r, hE, hmean, hge, hle⟩

/-- Claim C8: the matching engine is deterministic — two calls whose job
requirements, profile, collaborator category scores and weights coincide
produce identical `MatchResult`s. -/
theorem match_deterministic
    (req₁ req₂ prof₁ prof₂ : List String) (es₁ es₂ ed₁ ed₂ : Rat)
    (w₁ w₂ : Option Weights)
    (hreq : req₁ = req₂) (hprof : prof₁ = prof₂) (hes : es₁ = es₂)
    (hed : ed₁ = ed₂) (hw : w₁ = w₂) :
    engineMatch req₁ prof₁ es₁ ed₁ w₁ = engineMatch req₂ prof₂ es₂ ed₂ w₂ := by
  subst hreq hprof hes hed hw
  rfl

/-- Claim C8 witness: determinism at a concrete pair of identical calls. -/
theorem match_deterministic_witness :
    engineMatch ["Python"] ["Python"] 1 0 none = engineMatch ["Python"] ["Python"] 1 0 none :=
  match_deterministic ["Python"] ["Python"] ["Python"] ["Python"] 1 1 0 0 none none
    rfl rfl rfl rfl rfl

/-! ## Analytics aggregator -/

/-- Position of a stage in the pipeline; `Rejected` counts as past `Applied`
(a rejection is a response), unknown names rank lowest. -/
def stageRank (s : String) : Nat :=
  if s = "Interested" then 0
  else if s = "Applied" then 1
  else if s = "Phone Screen" then 2
  else if s = "Interview" then 3
  else if s = "Offer" then 4
  else if s = "Rejected" then 5
  else 0

/-- All stages a job ever passed through: its current stage and the
endpoints of every recorded transition. -/
def stagesReached (j : JobApplication) : List String :=
  j.stage :: (j.history.map (·.fromStage) ++ j.history.map (·.toStage))

/-- Whether a job ever reached the given stage. -/
def reachedStage (j : JobApplication) (s : String) : Bool :=
  (stagesReached j).contains s

/-- Whether a job ever reached `Applied` or a later stage. -/
def reachedApplied (j : JobApplication) : Bool :=
  (stagesReached j).any (fun s => decide (1 ≤ stageRank s))

/-- Whether a job ever reached a stage beyond `Applied`. -/
def reachedBeyondApplied (j : JobApplication) : Bool :=
  (stagesReached j).any (fun s => decide (1 < stageRank s))

/-- Per-stage count: the number of jobs in the cohort that ever reached the
stage. -/
def funnelCount (jobs : List JobApplication) (s : String) : Nat :=
  (jobs.filter (fun j => reachedStage j s)).length

/-- Modelled from the spec: the funnel response rate (§4.5): jobs that ever
reached a stage beyond `Applied` over jobs that reached `Applied` or beyond,
0 when the denominator is 0. -/
def respRate (jobs : List JobApplication) : Rat :=
  let denom := (jobs.filter reachedApplied).length
  if denom = 0 then 0
  else ((jobs.filter reachedBeyondApplied).length : Rat) / (denom : Rat)

/-- A funnel report (§3): per-stage counts and the response rate. -/
structure FunnelReport where
  counts : List (String × Nat)
  responseRate : Rat
deriving DecidableEq, Repr

/-- Modelled from the spec: `AnalyticsAggregator.computeFunnel(jobs)` (§4.5,
Scenario D): per-stage reached counts over the six stages, plus the response
rate. -/
def computeFunnel (jobs : List JobApplication) : FunnelReport :=
  { counts := stageNames.map (fun s => (s, funnelCount jobs s))
  , responseRate := respRate jobs }

/-- A job that progressed to `Interview`. -/
def jobInterview : JobApplication :=
  { jobApplied with
      stage := "Interview",
      history := [⟨"Interested", "Applied", 10⟩, ⟨"Applied", "Interview", 20⟩] }

/-- A job that progressed to `Offer`. -/
def jobOffer : JobApplication :=
  { jobApplied with
      stage := "Offer",
      history := [⟨"Interested", "Applied", 10⟩, ⟨"Applied", "Interview", 20⟩,
        ⟨"Interview", "Offer", 30⟩] }

/-- Scenario D cohort: 20 jobs reached `Applied`, 6 of them reached
`Interview`, 2 of those reached `Offer`. -/
def cohortD : List JobApplication :=
  List.replicate 14 jobApplied ++ List.replicate 4 jobInterview ++ List.replicate 2 jobOffer

/-- Claim C5: the funnel response rate is the number of jobs that ever reached a
stage beyond `Applied` over the number that reached `Applied` or beyond, and
0 when that denominator is 0; on the Scenario D cohort the funnel counts are
applied = 20, interview = 6, offer = 2 and the response rate is 6/20. -/
theorem computeFunnel_response_rate :
    (∀ jobs : List JobApplication,
      ((jobs.filter reachedApplied).length = 0 → (computeFunnel jobs).responseRate = 0) ∧
      ((jobs.filter reachedApplied).length ≠ 0 →
        (computeFunnel jobs).responseRate =
          ((jobs.filter reachedBeyondApplied).length : Rat) /
            ((jobs.filter reachedApplied).length : Rat))) ∧
    ((computeFunnel cohortD).counts.lookup "Applied" = some 20 ∧
      (computeFunnel cohortD).counts.lookup "Interview" = some 6 ∧
      (computeFunnel cohortD).counts.lookup "Offer" = some 2 ∧
      (computeFunnel cohortD).responseRate = 6/20) := by
  constructor
  · intro jobs
    constructor
    · intro h
      simp [computeFunnel, respRate, h]
    · intro h
      simp [computeFunnel, respRate, h]
  · refine ⟨by decide, by decide, by decide, ?_⟩
    show respRate cohortD = 6/20
    have hd : (cohortD.filter reachedApplied).length = 20 := by decide
    have hb : (cohortD.filter reachedBeyondApplied).length = 6 := by decide
    simp only [respRate, hd, hb]
    norm_num

/-- Claim C5 witness: an empty cohort has denominator 0 and response rate 0. -/
theorem computeFunnel_response_rate_witness :
    (computeFunnel ([] : List JobApplication)).responseRate = 0 :=
  (computeFunnel_response_rate.1 []).1 (by decide)

/-! ## Job creation -/

/-- A create-job request payload. -/
structure JobPayload where
  title : String
  company : String
  description : String
  deadline : Option Int
deriving DecidableEq, Repr

/-- Validation failures surfaced synchronously on creation (§7). -/
inductive ValidationError where
  | missingRequired
  | descriptionTooLong
deriving DecidableEq, Repr

/-- Modelled from the spec: `JobStore` create (§3, §7; exercised by
UC-036): the required fields title and company must be present and the
description at most 2000 units long; a violation is surfaced as a
`ValidationError`, otherwise the job is stored with the payload's fields
unmodified, at the initial stage with empty history. -/
def createJob (pid : String) (p : JobPayload) : Except ValidationError JobApplication :=
  if p.title = "" ∨ p.company = "" then .error .missingRequired
  else if 2000 < p.description.length then .error .descriptionTooLong
  else .ok { id := pid, title := p.title, company := p.company
           , description := p.description, deadline := p.deadline
           , stage := "Interested", history := [] }

/-- Claim C9: creation succeeds iff title and company are present and the
description is at most 2000 units long; a missing required field or an
over-long description is reported as the corresponding `ValidationError`,
and a successful creation stores the payload's fields unchanged (nothing is
silently dropped or auto-corrected). -/
theorem createJob_validates (pid : String) (p : JobPayload) :
    ((∃ j, createJob pid p = .ok j) ↔
      (p.title ≠ "" ∧ p.company ≠ "" ∧ p.description.length ≤ 2000)) ∧
    (∀ j, createJob pid p = .ok j →
      j.title = p.title ∧ j.company = p.company ∧ j.description = p.description ∧
        j.deadline = p.deadline) ∧
    ((p.title = "" ∨ p.company = "") → createJob pid p = .error .missingRequired) ∧
    (p.title ≠ "" → p.company ≠ "" → 2000 < p.description.length →
      createJob pid p = .error .descriptionTooLong) := by
  refine ⟨⟨?_, ?_⟩, ?_, ?_, ?_⟩
  · intro ⟨j, hj⟩
    by_cases hm : p.title = "" ∨ p.company = ""
    · simp [createJob, hm] at hj
    · by_cases hl : 2000 < p.description.length
      · simp [createJob, hm, hl] at hj
      · push_neg at hm hl
        exact ⟨hm.1, hm.2, hl⟩
  · intro ⟨ht, hc, hl⟩
    have hm : ¬ (p.title = "" ∨ p.company = "") := by
      push_neg
      exact ⟨ht, hc⟩
    have hl' : ¬ 2000 < p.description.length := by omega
    simp only [createJob, hm, if_false, hl', if_false]
    exact ⟨_, rfl⟩
  · intro j hj
    by_cases hm : p.title = "" ∨ p.company = ""
    · simp [createJob, hm] at hj
    · by_cases hl : 2000 < p.description.length
      · simp [createJob, hm, hl] at hj
      · simp only [createJob, hm, if_false, hl, if_false, Except.ok.injEq] at hj
        subst hj
        exact ⟨rfl, rfl, rfl, rfl⟩
  · intro hm
    simp [createJob, hm]
  · intro ht hc hl
    have hm : ¬ (p.title = "" ∨ p.company = "") := by
      push_neg
      exact ⟨ht, hc⟩
    simp [createJob, hm, hl]

/-- A concrete payload missing its required company field. -/
def payloadNoCompany : JobPayload :=
  { title := "Software Engineer", company := "", description := "ok", deadline := none }

/-- Claim C9 witness: a concrete payload missing its company is rejected with a
`ValidationError`. -/
theorem createJob_validates_witness :
    createJob "job_999" payloadNoCompany = .error .missingRequired :=
  (createJob_validates "job_999" payloadNoCompany).2.2.1 (by decide)

/-! ## Cover-letter generation (embedded from the repository's `fake_ai`
stub) -/

/-- A structured cover letter as produced by the generator. -/
structure CoverLetter where
  opening : String
  body : List String
  closing : String
  tone : String
deriving DecidableEq, Repr

/-- The repository's deterministic cover-letter generator
(`fake_ai.generate_cover_letter` in the test suite): the opening is built
from the job's title and company, the body and closing are fixed, and the
tone field is exactly the supplied tone argument. -/
def generateCoverLetter (job : JobPayload) (_profile : List String) (tone : String) :
    CoverLetter :=
  { opening := "I’m excited about " ++ job.title ++ " at " ++ job.company ++ "."
  , body := ["I led similar initiatives…", "Recent news shows momentum…"]
  , closing := "Thank you for your consideration."
  , tone := tone }

/-- Calling the generator without a tone argument uses the default tone
"formal" (the Python stub's default parameter). -/
def generateCoverLetterDefault (job : JobPayload) (profile : List String) : CoverLetter :=
  generateCoverLetter job profile "formal"

/-- Claim C10: the generated letter's tone field equals the supplied tone argument
exactly; omitting the tone yields tone "formal"; and two calls differing
only in tone produce letters with different tone fields. -/
theorem coverLetter_tone_field (job : JobPayload) (profile : List String)
    (tone t₁ t₂ : String) :
    (generateCoverLetter job profile tone).tone = tone ∧
    (generateCoverLetterDefault job profile).tone = "formal" ∧
    (t₁ ≠ t₂ →
      (generateCoverLetter job profile t₁).tone ≠ (generateCoverLetter job profile t₂).tone) :=
  ⟨rfl, rfl, fun h => h⟩

/-- The SWE-at-Acme job used by the tone test (UC-058). -/
def jobSWE : JobPayload :=
  { title := "SWE", company := "Acme", description := "", deadline := none }

/-- Claim C10 witness: concrete calls with tones "formal" and "enthusiastic"
produce letters with those exact tone fields, and they differ. -/
theorem coverLetter_tone_field_witness :
    (generateCoverLetter jobSWE [] "enthusiastic").tone = "enthusiastic" ∧
    (generateCoverLetter jobSWE [] "formal").tone ≠
      (generateCoverLetter jobSWE [] "enthusiastic").tone :=
  ⟨(coverLetter_tone_field jobSWE [] "enthusiastic" "formal" "enthusiastic").1,
   (coverLetter_tone_field jobSWE [] "enthusiastic" "formal" "enthusiastic").2.2 (by decide)⟩

end Jibbit
